import Mathlib

/-!
Verification of the Privacy & Access Control Core of the IS-hospital-system
repository (a shallow embedding of `core/encryption.py`, `core/auth.py`,
`core/logger.py` and `core/gdpr.py` in Lean 4).

Modelling conventions:
  * Python strings are `List Char` where character-level processing matters
    (hex parsing, masking, splitting); elsewhere `String` is used.
  * Bytes (`bytes` objects) are `List (Fin 256)`.
  * Python `None` becomes `Option.none`; a Python function that may raise is
    embedded in `Except`.
  * External library primitives not part of the repository (the Fernet
    cipher, PBKDF2-HMAC-SHA256, the SQLite connection) are parameters of the
    embedded functions; the repository code never inspects their internals.
-/

namespace Hospital

/-! ## core/encryption.py — encrypt_data / decrypt_data

The Fernet cipher is an external library object.  The functions below take
its `encrypt`/`decrypt` methods as parameters; `decrypt` returns `none` to
model the `InvalidToken` exception on a foreign/tampered token.  `encrypt_data`
and `decrypt_data` are the repository's wrappers (lines 46–57): a `None`
input short-circuits to `None` before the cipher method is reached. -/

/-- `encrypt_data` (encryption.py line 46): `if plaintext is None: return None`,
otherwise call the cipher. -/
def encrypt_data (enc : String → String) : Option String → Option String
  | none => none
  | some plaintext => some (enc plaintext)

/-- `decrypt_data` (encryption.py line 53): `if ciphertext is None: return None`,
otherwise call the cipher; a cipher failure (`InvalidToken`) propagates as an
exception, modelled by `Except.error`. -/
def decrypt_data (dec : String → Option String) : Option String → Except Unit (Option String)
  | none => .ok none
  | some ciphertext =>
      match dec ciphertext with
      | some plaintext => .ok (some plaintext)
      | none => .error ()

/-! ## core/encryption.py — mask_contact

`mask_contact` (lines 74–100) walks `reversed(contact)` keeping a running
count of digits seen so far; the first four digits met from the right are
kept, every later digit becomes `'X'`, non-digits pass through; the result
is reversed back.  (The `digits`/`last4` computation at lines 82–83 does not
feed into the output and is not modelled.) -/

/-- The loop body of `mask_contact`: processes the reversed contact with the
running `digit_count` accumulator. -/
def maskRev : Nat → List Char → List Char
  | _, [] => []
  | digit_count, ch :: rest =>
      if ch.isDigit then
        (if digit_count + 1 ≤ 4 then ch else 'X') :: maskRev (digit_count + 1) rest
      else
        ch :: maskRev digit_count rest

/-- `mask_contact` (encryption.py lines 74–100): empty (falsy) input returns
`""`; otherwise mask from the right and reverse back. -/
def mask_contact (contact : List Char) : List Char :=
  if contact = [] then []
  else (maskRev 0 contact.reverse).reverse

/-! ## core/auth.py — password hashing and verification

The stored credential artifact is the string `iterations$salt_hex$hash_hex`
(auth.py lines 33–39).  `binascii.hexlify`/`unhexlify` and `str.split` are
modelled character-exactly; PBKDF2-HMAC-SHA256 itself is an external
primitive and is a parameter `H` of the embedded functions (the code only
ever calls it, never inspects it). -/

/-- Lowercase hex digits as emitted by `binascii.hexlify`. -/
def hexDigit (d : Fin 16) : Char := "0123456789abcdef".toList.getD d.val '0'

/-- Value of one hex character, upper or lower case, as accepted by
`binascii.unhexlify`; `none` models the `binascii.Error` on a non-hex char. -/
def hexDigitVal (c : Char) : Option (Fin 16) :=
  if c = '0' then some 0 else if c = '1' then some 1
  else if c = '2' then some 2 else if c = '3' then some 3
  else if c = '4' then some 4 else if c = '5' then some 5
  else if c = '6' then some 6 else if c = '7' then some 7
  else if c = '8' then some 8 else if c = '9' then some 9
  else if c = 'a' ∨ c = 'A' then some 10 else if c = 'b' ∨ c = 'B' then some 11
  else if c = 'c' ∨ c = 'C' then some 12 else if c = 'd' ∨ c = 'D' then some 13
  else if c = 'e' ∨ c = 'E' then some 14 else if c = 'f' ∨ c = 'F' then some 15
  else none

/-- `binascii.hexlify` of one byte: two lowercase hex characters. -/
def hexlifyByte (b : Fin 256) : List Char :=
  [hexDigit ⟨b.val / 16, by have h := b.isLt; omega⟩,
   hexDigit ⟨b.val % 16, by have h := b.isLt; omega⟩]

/-- `binascii.hexlify` on a byte string. -/
def hexlify (bs : List (Fin 256)) : List Char := (bs.map hexlifyByte).flatten

/-- `binascii.unhexlify`: fails (raises, modelled as `none`) on odd length or
a non-hex character. -/
def unhexlify : List Char → Option (List (Fin 256))
  | [] => some []
  | [_] => none
  | c1 :: c2 :: rest =>
      match hexDigitVal c1, hexDigitVal c2, unhexlify rest with
      | some hi, some lo, some bs =>
          some (⟨16 * hi.val + lo.val, by
            have h1 := hi.isLt; have h2 := lo.isLt; omega⟩ :: bs)
      | _, _, _ => none

/-- One decimal digit character. -/
def digitChar (d : Fin 10) : Char := "0123456789".toList.getD d.val '0'

/-- Decimal rendering of a natural number (Python `str(n)` / f-string),
most significant digit first.  Structural on a fuel argument so that the
kernel can evaluate it; `toDecimal` supplies fuel `n + 1`, always enough
since the digit count of `n` is at most `n + 1`. -/
def toDecimalCore : Nat → Nat → List Char → List Char
  | 0, _, acc => acc
  | fuel + 1, n, acc =>
      if h : n < 10 then digitChar ⟨n, h⟩ :: acc
      else toDecimalCore fuel (n / 10) (digitChar ⟨n % 10, by omega⟩ :: acc)

def toDecimal (n : Nat) : List Char := toDecimalCore (n + 1) n []

/-- Python `int(s)` restricted to the strings this code ever feeds it: a
non-empty run of decimal digits parses to its value, anything else fails
(raises `ValueError`, modelled as `none`). -/
def parseNatAux : Nat → List Char → Option Nat
  | acc, [] => some acc
  | acc, c :: rest =>
      if c.isDigit then parseNatAux (acc * 10 + (c.toNat - 48)) rest else none

def parseNat (l : List Char) : Option Nat :=
  if l.isEmpty then none else parseNatAux 0 l

/-- Python `str.split(sep)`: splits on every occurrence, keeping empty
pieces; `"".split(sep) == [""]`. -/
def pySplit (sep : Char) : List Char → List (List Char)
  | [] => [[]]
  | c :: rest =>
      if c = sep then [] :: pySplit sep rest
      else
        match pySplit sep rest with
        | [] => [[c]]
        | g :: gs => (c :: g) :: gs

/-- `hashlib.pbkdf2_hmac("sha256", password, salt, iterations)` is an
external primitive: the embedding passes it around as a function from
(utf-8 password, salt, iteration count) to the derived hash bytes. -/
def Pbkdf2 : Type := List Char → List (Fin 256) → Nat → List (Fin 256)

/-- auth.py line 24. -/
def PBKDF2_ITERATIONS : Nat := 200000

/-- A concrete stand-in key-derivation function used to instantiate the
`Pbkdf2` parameter in closed evaluations: constant empty digest. -/
def constPRF : Pbkdf2 := fun _ _ _ => []

/-- A concrete stand-in key-derivation function that distinguishes the
password `"a"` from every other password. -/
def samplePRF : Pbkdf2 := fun p _ _ => if p = ['a'] then [(1 : Fin 256)] else []

/-- `_hash_password` (auth.py lines 33–39): the salt drawn from `os.urandom`
is a parameter (explicit randomness); result is
`f"{iterations}${salt_hex}${hash_hex}"`. -/
def _hash_password (H : Pbkdf2) (password : List Char) (salt : List (Fin 256))
    (iterations : Nat) : List Char :=
  toDecimal iterations ++ '$' :: (hexlify salt ++ '$' :: hexlify (H password salt iterations))

/-- `hmac.compare_digest`: constant-time in the implementation, value-level
byte-string equality. -/
def compare_digest (a b : List (Fin 256)) : Bool := decide (a = b)

/-- `_verify_password` (auth.py lines 42–55): split the stored artifact on
`'$'` into exactly three fields, parse them, recompute the hash and compare;
every failure inside the `try` block returns `False`. -/
def _verify_password (H : Pbkdf2) (stored provided : List Char) : Bool :=
  match pySplit '$' stored with
  | [iterations_s, salt_hex, hash_hex] =>
      match parseNat iterations_s, unhexlify salt_hex, unhexlify hash_hex with
      | some iterations, some salt, some expected_hash =>
          compare_digest (H provided salt iterations) expected_hash
      | _, _, _ => false
  | _ => false

/-! ## core/auth.py — user lookup, authentication, password change -/

/-- A row of the `users` table (database.py lines 26–31). -/
structure UserRow where
  user_id : Nat
  username : String
  password : List Char
  role : String
deriving DecidableEq

/-- `get_user_by_username` (auth.py lines 96–117): `SELECT user_id, username,
password, role FROM users WHERE username = ?` + `fetchone()` — the first
matching row, with all four columns, or `None`. -/
def get_user_by_username (db : List UserRow) (username : String) : Option UserRow :=
  db.find? (fun u => u.username = username)

/-- `authenticate_user` (auth.py lines 123–146): on a found user with a
verifying password return the user dict unchanged (password field included);
on unknown user or wrong password both paths fall into the same `else` and
return `None`.  The audit-log call sites are wrapped in `try/except: pass`
and do not affect the returned value. -/
def authenticate_user (H : Pbkdf2) (db : List UserRow) (username : String)
    (password : List Char) : Option UserRow :=
  match get_user_by_username db username with
  | some user =>
      if _verify_password H user.password password then some user else none
  | none => none

/-- `change_password` (auth.py lines 149–163): hash the new password with a
fresh salt, run the SQL `UPDATE` (the storage primitive `upd`, returning
`cur.rowcount` or raising), return `rowcount == 1`; the surrounding
`try/except Exception: return False` catches any storage failure. -/
def change_password (H : Pbkdf2) (upd : Nat → List Char → Except String Nat)
    (user_id : Nat) (new_password : List Char) (salt : List (Fin 256)) :
    Except String Bool :=
  match (do
      let pwd_stored := _hash_password H new_password salt PBKDF2_ITERATIONS
      let rowcount ← upd user_id pwd_stored
      pure (decide (rowcount = 1)) : Except String Bool) with
  | .ok b => .ok b
  | .error _ => .ok false

/-! ## core/logger.py — audit logging -/

/-- A row of the `logs` table. -/
structure LogEntry where
  user_id : Option Nat
  role : String
  action : String
  timestamp : Int
  details : String
deriving DecidableEq

/-- logger.py lines 7–22. -/
def VALID_ACTIONS : List String :=
  ["login", "logout", "add", "update", "delete", "view", "anonymize",
   "anonymization", "export", "backup", "decrypt", "read", "gdpr_delete", "other"]

/-- `log_action` (logger.py lines 25–66): normalize the action with
`(action or "").lower().strip()`, coerce unknown tags to `"other"`, then
attempt the `INSERT` (the storage primitive `ins`, which may raise); the
`try/except Exception` prints a diagnostic instead of re-raising, so the
function itself never raises — its result is always `Except.ok`, carrying
the optional diagnostic text. -/
def log_action (ins : LogEntry → Except String Unit) (user_id : Option Nat)
    (role : String) (action : Option String) (now : Int) (details : String) :
    Except String (Option String) :=
  let a := ((action.getD "").toLower).trim
  let a := if a ∈ VALID_ACTIONS then a else "other"
  match ins ⟨user_id, role, a, now, details⟩ with
  | .ok _ => .ok none
  | .error e => .ok (some ("[LOGGER ERROR] Could not record log: " ++ e))

/-! ## core/gdpr.py — data-retention sweep -/

/-- The persisted `data/gdpr_settings.json` contents (gdpr.py lines 9–21). -/
structure GdprSettings where
  retention_days : Nat
  last_deleted_count : Nat
  total_deleted_count : Nat
  last_run : Option Int
deriving DecidableEq

/-- Default settings created on a missing file (gdpr.py lines 13–20). -/
def default_gdpr_settings : GdprSettings :=
  { retention_days := 1825
    last_deleted_count := 0
    total_deleted_count := 0
    last_run := none }

/-- `load_gdpr_settings`: the stored file, or the default on
`FileNotFoundError`. -/
def load_gdpr_settings : Option GdprSettings → GdprSettings
  | some s => s
  | none => default_gdpr_settings

/-- A row of the `patients` table, reduced to the columns the sweep reads.
`date_added` is a timestamp measured in days; the SQL string comparison on
`"%Y-%m-%d %H:%M:%S"`-formatted strings is chronological, so it is modelled
by integer order. -/
structure Patient where
  patient_id : Nat
  date_added : Int
deriving DecidableEq

/-- `run_data_retention` (gdpr.py lines 28–60): load (or default) the
settings, compute `cutoff = now - retention_days`, execute
`DELETE FROM patients WHERE date_added <= cutoff` (`deleted_now` is the SQL
`rowcount`), persist the updated counters, and when `deleted_now > 0`
invoke `log_action` with tag `"gdpr_delete"` (returned here as the optional
audit message).  Returns, like the source, `(deleted_now,
total_deleted_count, retention_days)` alongside the new state. -/
def run_data_retention (stored : Option GdprSettings) (patients : List Patient)
    (now : Int) : GdprSettings × List Patient × Option String × Nat × Nat × Nat :=
  let settings := load_gdpr_settings stored
  let retention_days := settings.retention_days
  let cutoff : Int := now - retention_days
  let remaining := patients.filter (fun p => !(decide (p.date_added ≤ cutoff)))
  let deleted_now := patients.countP (fun p => decide (p.date_added ≤ cutoff))
  let settings2 : GdprSettings :=
    { settings with
      last_deleted_count := deleted_now
      total_deleted_count := settings.total_deleted_count + deleted_now
      last_run := some now }
  let audit : Option String :=
    if deleted_now > 0 then
      some ("Deleted " ++ toString deleted_now ++ " patient records older than "
        ++ toString retention_days ++ " days.")
    else none
  (settings2, remaining, audit, deleted_now, settings2.total_deleted_count, retention_days)

end Hospital

namespace Hospital

theorem maskRev_length (cnt : Nat) (l : List Char) : (maskRev cnt l).length = l.length := by
  induction l generalizing cnt with
  | nil => rfl
  | cons c rest ih =>
      simp only [maskRev]
      split <;> simp [ih]

theorem mask_contact_length (contact : List Char) :
    (mask_contact contact).length = contact.length := by
  unfold mask_contact
  split
  · simp_all
  · simp [maskRev_length]

/-- Positional description of the masking loop: the character at index `j`
survives if it is not a digit, or if the digits seen up to and including it
(plus the initial count) number at most four; otherwise it becomes `'X'`. -/
theorem maskRev_getElem? (l : List Char) (cnt j : Nat) :
    (maskRev cnt l)[j]? = (l[j]?).map (fun c =>
      if c.isDigit then
        (if cnt + (l.take (j + 1)).countP (fun ch => ch.isDigit) ≤ 4 then c else 'X')
      else c) := by
  induction l generalizing cnt j with
  | nil => simp [maskRev]
  | cons c rest ih =>
      by_cases hc : c.isDigit
      · rw [show maskRev cnt (c :: rest)
              = (if cnt + 1 ≤ 4 then c else 'X') :: maskRev (cnt + 1) rest by
            simp [maskRev, hc]]
        cases j with
        | zero => simp [hc]
        | succ j =>
            rw [List.getElem?_cons_succ, ih (cnt + 1) j, List.getElem?_cons_succ,
              List.take_succ_cons, List.countP_cons]
            cases hr : rest[j]? with
            | none => rfl
            | some d =>
                by_cases hd : d.isDigit
                · have hx : cnt + 1 + (rest.take (j + 1)).countP (fun ch => ch.isDigit)
                      = cnt + ((rest.take (j + 1)).countP (fun ch => ch.isDigit) + 1) := by
                    omega
                  simp [hd, hc, hx]
                · simp [hd]
      · rw [show maskRev cnt (c :: rest) = c :: maskRev cnt rest by simp [maskRev, hc]]
        cases j with
        | zero => simp [hc]
        | succ j =>
            rw [List.getElem?_cons_succ, ih cnt j, List.getElem?_cons_succ,
              List.take_succ_cons, List.countP_cons]
            simp [hc]

/-- If the digits remaining (plus those already counted) never exceed 4, the
masking loop is the identity. -/
theorem maskRev_of_few_digits (cnt : Nat) (l : List Char)
    (h : cnt + l.countP (fun c => c.isDigit) ≤ 4) : maskRev cnt l = l := by
  induction l generalizing cnt with
  | nil => rfl
  | cons c rest ih =>
      simp only [maskRev, List.countP_cons] at *
      by_cases hc : c.isDigit
      · simp only [hc, if_true] at h ⊢
        have h4 : cnt + 1 ≤ 4 := by omega
        rw [if_pos h4, ih (cnt + 1) (by omega)]
      · simp only [hc] at h ⊢
        simp only [if_false, Bool.false_eq_true, decide_eq_true_eq] at h ⊢
        rw [ih cnt (by omega)]

/-- Index-level description of `mask_contact`: at every valid index, a
non-digit is unchanged and a digit is kept exactly when at most four digits
occur in the suffix starting at that index (i.e. it is one of the last four
digits counted from the right). -/
theorem mask_contact_getElem? (contact : List Char) (i : Nat) (hi : i < contact.length) :
    (mask_contact contact)[i]? = (contact[i]?).map (fun c =>
      if c.isDigit then
        (if (contact.drop i).countP (fun ch => ch.isDigit) ≤ 4 then c else 'X')
      else c) := by
  have hne : contact ≠ [] := by
    intro h
    subst h
    simp at hi
  unfold mask_contact
  rw [if_neg hne]
  have hlen : (maskRev 0 contact.reverse).length = contact.length := by
    rw [maskRev_length, List.length_reverse]
  rw [List.getElem?_reverse (by rw [hlen]; exact hi), hlen, maskRev_getElem?]
  have hj : contact.length - 1 - i < contact.length := by omega
  rw [List.getElem?_reverse (by simpa using hj),
    show contact.length - 1 - (contact.length - 1 - i) = i from by omega,
    show contact.length - 1 - i + 1 = contact.length - i from by omega,
    List.take_reverse,
    show contact.length - (contact.length - i) = i from by omega,
    List.countP_reverse]
  simp

/-! Helper lemmas for the credential artifact: decimal round-trip, hex
round-trip, and `str.split` on the `$`-separated format. -/

theorem toDecimalCore_append (fuel : Nat) :
    ∀ (n : Nat) (acc : List Char),
      toDecimalCore fuel n acc = toDecimalCore fuel n [] ++ acc := by
  induction fuel with
  | zero => intro n acc; rfl
  | succ fuel ih =>
      intro n acc
      by_cases h : n < 10
      · simp [toDecimalCore, h]
      · simp only [toDecimalCore, dif_neg h]
        rw [ih (n / 10) (digitChar ⟨n % 10, by omega⟩ :: acc),
          ih (n / 10) (digitChar ⟨n % 10, by omega⟩ :: [])]
        simp

theorem toDecimalCore_mem (fuel : Nat) :
    ∀ (n : Nat) (acc : List Char) (c : Char), c ∈ toDecimalCore fuel n acc →
      (∃ d : Fin 10, c = digitChar d) ∨ c ∈ acc := by
  induction fuel with
  | zero => intro n acc c hc; exact Or.inr hc
  | succ fuel ih =>
      intro n acc c hc
      by_cases h : n < 10
      · simp only [toDecimalCore, dif_pos h, List.mem_cons] at hc
        rcases hc with hc | hc
        · exact Or.inl ⟨⟨n, h⟩, hc⟩
        · exact Or.inr hc
      · simp only [toDecimalCore, dif_neg h] at hc
        rcases ih (n / 10) _ c hc with hd | hc
        · exact Or.inl hd
        · rcases List.mem_cons.mp hc with hc | hc
          · exact Or.inl ⟨⟨n % 10, by omega⟩, hc⟩
          · exact Or.inr hc

theorem digitChar_ne_dollar : ∀ d : Fin 10, digitChar d ≠ '$' := by decide

theorem toDecimal_no_dollar (n : Nat) : '$' ∉ toDecimal n := by
  intro hmem
  rcases toDecimalCore_mem (n + 1) n [] '$' hmem with ⟨d, hd⟩ | h
  · exact digitChar_ne_dollar d hd.symm
  · exact List.not_mem_nil _ h

theorem digitChar_isDigit : ∀ d : Fin 10, (digitChar d).isDigit = true := by decide

theorem digitChar_toNat : ∀ d : Fin 10, (digitChar d).toNat - 48 = d.val := by decide

theorem parseNatAux_digitChar (d : Fin 10) (a : Nat) (rest : List Char) :
    parseNatAux a (digitChar d :: rest) = parseNatAux (a * 10 + d.val) rest := by
  simp [parseNatAux, digitChar_isDigit d, digitChar_toNat d]

theorem parseNatAux_toDecimalCore (fuel : Nat) :
    ∀ (n a : Nat) (rest : List Char), n < fuel →
      parseNatAux a (toDecimalCore fuel n rest)
        = parseNatAux (a * 10 ^ (toDecimalCore fuel n []).length + n) rest := by
  induction fuel with
  | zero => intro n a rest h; omega
  | succ fuel ih =>
      intro n a rest h
      by_cases h10 : n < 10
      · simp only [toDecimalCore, dif_pos h10]
        rw [parseNatAux_digitChar ⟨n, h10⟩]
        simp
      · simp only [toDecimalCore, dif_neg h10]
        have hfuel : n / 10 < fuel := by omega
        rw [ih (n / 10) a (digitChar ⟨n % 10, by omega⟩ :: rest) hfuel,
          parseNatAux_digitChar ⟨n % 10, by omega⟩,
          toDecimalCore_append fuel (n / 10) (digitChar ⟨n % 10, by omega⟩ :: [])]
        have hlen : (toDecimalCore fuel (n / 10) [] ++ [digitChar ⟨n % 10, by omega⟩]).length
            = (toDecimalCore fuel (n / 10) []).length + 1 := by simp
        rw [hlen]
        have harith : (a * 10 ^ (toDecimalCore fuel (n / 10) []).length + n / 10) * 10 + n % 10
            = a * 10 ^ ((toDecimalCore fuel (n / 10) []).length + 1) + n := by
          rw [Nat.add_mul, pow_succ, ← Nat.mul_assoc]
          omega
        rw [harith]

theorem toDecimal_ne_nil (n : Nat) : toDecimal n ≠ [] := by
  unfold toDecimal toDecimalCore
  by_cases h : n < 10
  · simp [h]
  · simp only [dif_neg h]
    rw [toDecimalCore_append]
    simp

theorem parseNat_toDecimal (n : Nat) : parseNat (toDecimal n) = some n := by
  unfold parseNat
  rw [if_neg (by simpa using toDecimal_ne_nil n)]
  unfold toDecimal
  rw [parseNatAux_toDecimalCore (n + 1) n 0 [] (by omega)]
  simp [parseNatAux]

theorem hexDigit_ne_dollar : ∀ d : Fin 16, hexDigit d ≠ '$' := by decide

theorem hexDigitVal_hexDigit : ∀ d : Fin 16, hexDigitVal (hexDigit d) = some d := by decide

theorem hexlify_no_dollar (bs : List (Fin 256)) : '$' ∉ hexlify bs := by
  induction bs with
  | nil => simp [hexlify]
  | cons b bs ih =>
      intro hmem
      simp only [hexlify, List.map_cons, List.flatten_cons] at hmem
      rcases List.mem_append.mp hmem with hmem | hmem
      · simp only [hexlifyByte, List.mem_cons, List.mem_singleton] at hmem
        rcases hmem with h | h | h
        · exact hexDigit_ne_dollar _ h.symm
        · exact hexDigit_ne_dollar _ h.symm
        · exact List.not_mem_nil _ h
      · exact ih hmem

theorem unhexlify_hexlify (bs : List (Fin 256)) : unhexlify (hexlify bs) = some bs := by
  induction bs with
  | nil => rfl
  | cons b bs ih =>
      have hcons : hexlify (b :: bs)
          = hexDigit ⟨b.val / 16, by have h := b.isLt; omega⟩
            :: hexDigit ⟨b.val % 16, by have h := b.isLt; omega⟩ :: hexlify bs := by
        simp [hexlify, hexlifyByte]
      rw [hcons]
      unfold unhexlify
      rw [hexDigitVal_hexDigit, hexDigitVal_hexDigit, ih]
      have hb : (⟨16 * (b.val / 16) + b.val % 16, by have h := b.isLt; omega⟩ : Fin 256) = b := by
        apply Fin.ext
        simp
        omega
      simp [hb]

theorem pySplit_ne_nil (sep : Char) (l : List Char) : pySplit sep l ≠ [] := by
  cases l with
  | nil => simp [pySplit]
  | cons c rest =>
      simp only [pySplit]
      split
      · simp
      · split
        · simp
        · simp

theorem pySplit_of_not_mem (sep : Char) (l : List Char) (h : sep ∉ l) :
    pySplit sep l = [l] := by
  induction l with
  | nil => rfl
  | cons c rest ih =>
      have hc : ¬ c = sep := fun hcs => h (hcs ▸ List.mem_cons_self c rest)
      have hrest : sep ∉ rest := fun hr => h (List.mem_cons_of_mem c hr)
      simp only [pySplit, if_neg hc, ih hrest]

theorem pySplit_append (sep : Char) (a r : List Char) (h : sep ∉ a) :
    pySplit sep (a ++ sep :: r) = a :: pySplit sep r := by
  induction a with
  | nil => simp [pySplit]
  | cons c a' ih =>
      have hc : ¬ c = sep := fun hcs => h (hcs ▸ List.mem_cons_self c a')
      have ha' : sep ∉ a' := fun hs => h (List.mem_cons_of_mem c hs)
      simp only [List.cons_append, pySplit, if_neg hc, List.append_eq, ih ha']

/-- Splitting a freshly produced credential artifact recovers its three
fields. -/
theorem pySplit_hash_password (H : Pbkdf2) (password : List Char)
    (salt : List (Fin 256)) (iterations : Nat) :
    pySplit '$' (_hash_password H password salt iterations)
      = [toDecimal iterations, hexlify salt, hexlify (H password salt iterations)] := by
  unfold _hash_password
  rw [pySplit_append '$' _ _ (toDecimal_no_dollar iterations),
    pySplit_append '$' _ _ (hexlify_no_dollar salt),
    pySplit_of_not_mem '$' _ (hexlify_no_dollar _)]

/-- C1: for every string `s`, `decrypt_data` after `encrypt_data` under the
same cipher returns `s`, and a `None` input to either wrapper maps to a
`None` output for every cipher (the cipher methods are never invoked on the
`None` path, so the result does not depend on them). -/
theorem c1_encrypt_decrypt_roundtrip (enc : String → String) (dec : String → Option String)
    (hround : ∀ s, dec (enc s) = some s) :
    (∀ s : String, decrypt_data dec (encrypt_data enc (some s)) = .ok (some s)) ∧
    encrypt_data enc none = none ∧
    decrypt_data dec none = .ok none := by
  refine ⟨fun s => ?_, rfl, rfl⟩
  simp [encrypt_data, decrypt_data, hround s]

theorem c1_encrypt_decrypt_roundtrip_witness :
    (∀ s : String, (some : String → Option String) (id s) = some s) ∧
    (decrypt_data some (encrypt_data id (some "flu")) = .ok (some "flu") ∧
     encrypt_data (id : String → String) none = none ∧
     decrypt_data (some : String → Option String) none = .ok none) :=
  ⟨fun _ => rfl, (c1_encrypt_decrypt_roundtrip id some (fun _ => rfl)).1 "flu",
    (c1_encrypt_decrypt_roundtrip id some (fun _ => rfl)).2.1,
    (c1_encrypt_decrypt_roundtrip id some (fun _ => rfl)).2.2⟩

/-- C5: for every contact string with at least 4 digits, `mask_contact`
preserves the length, leaves every non-digit character in place, leaves a
digit in place exactly when at most four digits occur at or after its
position (the true last four digits counted from the right), and replaces
every other digit by the fixed mask character `'X'`. -/
theorem c5_mask_contact_keeps_last4 (contact : List Char)
    (h4 : 4 ≤ contact.countP (fun c => c.isDigit)) :
    (mask_contact contact).length = contact.length ∧
    ∀ (i : Nat) (c : Char), contact[i]? = some c →
      (mask_contact contact)[i]? =
        some (if c.isDigit then
                (if (contact.drop i).countP (fun ch => ch.isDigit) ≤ 4 then c else 'X')
              else c) := by
  refine ⟨mask_contact_length contact, fun i c hc => ?_⟩
  have hi : i < contact.length := by
    by_contra hlt
    rw [List.getElem?_eq_none (by omega)] at hc
    exact Option.noConfusion hc
  rw [mask_contact_getElem? contact i hi, hc]
  rfl

theorem c5_mask_contact_keeps_last4_witness :
    4 ≤ ("0321-1234567".toList).countP (fun c => c.isDigit) ∧
    ("0321-1234567".toList)[0]? = some '0' ∧
    ("0321-1234567".toList)[11]? = some '7' ∧
    (mask_contact "0321-1234567".toList)[0]? = some 'X' ∧
    (mask_contact "0321-1234567".toList)[11]? = some '7' := by
  refine ⟨by decide, by decide, by decide, ?_, ?_⟩
  · rw [(c5_mask_contact_keeps_last4 ("0321-1234567".toList) (by decide)).2 0 '0' (by decide)]
    decide
  · rw [(c5_mask_contact_keeps_last4 ("0321-1234567".toList) (by decide)).2 11 '7' (by decide)]
    decide

/-- C9: a non-empty contact string with fewer than 4 digits is returned by
`mask_contact` completely unchanged — every digit it contains is among the
last four counted from the right, so none is masked. -/
theorem c9_mask_contact_few_digits (contact : List Char) (hne : contact ≠ [])
    (hlt : contact.countP (fun c => c.isDigit) < 4) :
    mask_contact contact = contact := by
  unfold mask_contact
  rw [if_neg hne,
    maskRev_of_few_digits 0 contact.reverse (by rw [List.countP_reverse]; omega),
    List.reverse_reverse]

theorem c9_mask_contact_few_digits_witness :
    "+1-55".toList ≠ [] ∧
    ("+1-55".toList).countP (fun c => c.isDigit) < 4 ∧
    mask_contact "+1-55".toList = "+1-55".toList :=
  ⟨by decide, by decide, c9_mask_contact_few_digits _ (by decide) (by decide)⟩

/-- C2: verifying a freshly produced credential artifact against the hashed
password succeeds, and against a different password fails, provided the two
passwords do not collide under the key-derivation function at the artifact's
salt and iteration count (the "overwhelming probability" caveat of the
claim, made explicit). -/
theorem c2_hash_then_verify (H : Pbkdf2) (p1 p2 : List Char) (salt : List (Fin 256))
    (iterations : Nat) (hcoll : H p2 salt iterations ≠ H p1 salt iterations) :
    _verify_password H (_hash_password H p1 salt iterations) p1 = true ∧
    _verify_password H (_hash_password H p1 salt iterations) p2 = false := by
  have hv : ∀ p : List Char,
      _verify_password H (_hash_password H p1 salt iterations) p
        = compare_digest (H p salt iterations) (H p1 salt iterations) := by
    intro p
    unfold _verify_password
    rw [pySplit_hash_password]
    simp only [parseNat_toDecimal, unhexlify_hexlify]
  constructor
  · rw [hv p1]
    simp [compare_digest]
  · rw [hv p2]
    unfold compare_digest
    exact decide_eq_false hcoll

theorem c2_hash_then_verify_witness :
    samplePRF ['b'] [] 1 ≠ samplePRF ['a'] [] 1 ∧
    (_verify_password samplePRF (_hash_password samplePRF ['a'] [] 1) ['a'] = true ∧
     _verify_password samplePRF (_hash_password samplePRF ['a'] [] 1) ['b'] = false) :=
  ⟨by decide, c2_hash_then_verify samplePRF ['a'] ['b'] [] 1 (by decide)⟩

/-- C3: a retention sweep deletes exactly the records whose creation
timestamp is at or before `now` minus the horizon: a record survives the
sweep iff its `date_added` is strictly greater than the cutoff, so the
boundary is inclusive (a record exactly at the cutoff is deleted, a record
one day younger is kept). -/
theorem c3_retention_boundary (stored : Option GdprSettings) (patients : List Patient)
    (now : Int) (p : Patient) (hp : p ∈ patients) :
    p ∈ (run_data_retention stored patients now).2.1 ↔
      now - (load_gdpr_settings stored).retention_days < p.date_added := by
  unfold run_data_retention
  simp [List.mem_filter, hp, not_le]

theorem c3_retention_boundary_witness :
    ((⟨2, 90⟩ : Patient) ∈ [(⟨1, 89⟩ : Patient), ⟨2, 90⟩, ⟨3, 91⟩] ∧
      (⟨2, 90⟩ : Patient) ∉
        (run_data_retention (some ⟨10, 0, 0, none⟩)
          [(⟨1, 89⟩ : Patient), ⟨2, 90⟩, ⟨3, 91⟩] 100).2.1) ∧
    ((⟨3, 91⟩ : Patient) ∈ [(⟨1, 89⟩ : Patient), ⟨2, 90⟩, ⟨3, 91⟩] ∧
      (⟨3, 91⟩ : Patient) ∈
        (run_data_retention (some ⟨10, 0, 0, none⟩)
          [(⟨1, 89⟩ : Patient), ⟨2, 90⟩, ⟨3, 91⟩] 100).2.1) := by
  constructor
  · refine ⟨by decide, fun hmem => ?_⟩
    have h := (c3_retention_boundary (some ⟨10, 0, 0, none⟩)
      [(⟨1, 89⟩ : Patient), ⟨2, 90⟩, ⟨3, 91⟩] 100 ⟨2, 90⟩ (by decide)).mp hmem
    simp [load_gdpr_settings] at h
  · refine ⟨by decide, ?_⟩
    exact (c3_retention_boundary (some ⟨10, 0, 0, none⟩)
      [(⟨1, 89⟩ : Patient), ⟨2, 90⟩, ⟨3, 91⟩] 100 ⟨3, 91⟩ (by decide)).mpr
      (by simp [load_gdpr_settings])

/-- C4: an immediately repeated retention sweep (same clock reading, record
set as left by the first sweep) reports `deletedNow = 0` and leaves the
cumulative deleted counter exactly where the first sweep put it. -/
theorem c4_second_sweep_noop (stored : Option GdprSettings) (patients : List Patient)
    (now : Int) :
    (run_data_retention (some (run_data_retention stored patients now).1)
        ((run_data_retention stored patients now).2.1) now).2.2.2.1 = 0 ∧
    (run_data_retention (some (run_data_retention stored patients now).1)
        ((run_data_retention stored patients now).2.1) now).2.2.2.2.1
      = (run_data_retention stored patients now).2.2.2.2.1 := by
  have hzero :
      (patients.filter (fun p => !(decide (p.date_added
          ≤ now - ((load_gdpr_settings stored).retention_days : Int))))).countP
        (fun p => decide (p.date_added
          ≤ now - ((load_gdpr_settings stored).retention_days : Int))) = 0 := by
    rw [List.countP_eq_zero]
    intro q hq
    have := (List.mem_filter.mp hq).2
    simp_all
  have hload : ∀ s : GdprSettings, load_gdpr_settings (some s) = s := fun _ => rfl
  constructor
  · simp only [run_data_retention, hload]
    exact hzero
  · simp only [run_data_retention, hload]
    rw [hzero]
    omega

/-- C6: `log_action` stores the lowercased, trimmed action tag when that
normalized tag is in the closed fourteen-word vocabulary and `"other"`
otherwise, and it never raises: whatever the storage insert does, the result
is a normal return (`Except.ok`), carrying only an optional diagnostic
message when the insert failed. -/
theorem c6_log_action_normalizes (ins : LogEntry → Except String Unit)
    (user_id : Option Nat) (role : String) (action : Option String) (now : Int)
    (details : String) :
    log_action ins user_id role action now details =
      (match ins { user_id := user_id, role := role,
                   action :=
                     (if ((action.getD "").toLower).trim ∈
                         (["login", "logout", "add", "update", "delete", "view",
                           "anonymize", "anonymization", "export", "backup",
                           "decrypt", "read", "gdpr_delete", "other"] : List String)
                      then ((action.getD "").toLower).trim else "other"),
                   timestamp := now, details := details } with
        | .ok _ => .ok none
        | .error e => .ok (some ("[LOGGER ERROR] Could not record log: " ++ e))) ∧
    (log_action ins user_id role action now details).isOk = true := by
  have h : log_action ins user_id role action now details =
      (match ins { user_id := user_id, role := role,
                   action :=
                     (if ((action.getD "").toLower).trim ∈
                         (["login", "logout", "add", "update", "delete", "view",
                           "anonymize", "anonymization", "export", "backup",
                           "decrypt", "read", "gdpr_delete", "other"] : List String)
                      then ((action.getD "").toLower).trim else "other"),
                   timestamp := now, details := details } with
        | .ok _ => .ok none
        | .error e => .ok (some ("[LOGGER ERROR] Could not record log: " ++ e))) := rfl
  refine ⟨h, ?_⟩
  rw [h]
  cases ins { user_id := user_id, role := role,
              action :=
                (if ((action.getD "").toLower).trim ∈
                    (["login", "logout", "add", "update", "delete", "view",
                      "anonymize", "anonymization", "export", "backup",
                      "decrypt", "read", "gdpr_delete", "other"] : List String)
                 then ((action.getD "").toLower).trim else "other"),
              timestamp := now, details := details } <;> rfl

/-- C7: both failing authentication paths — unknown username, and known
username with a non-verifying password — return the same value, `None`, so
the caller-visible result carries no information about whether the username
exists. -/
theorem c7_uniform_failure (H : Pbkdf2) (db1 db2 : List UserRow) (u1 u2 : String)
    (p1 p2 : List Char)
    (h1 : get_user_by_username db1 u1 = none)
    (h2 : ∀ user, get_user_by_username db2 u2 = some user →
          _verify_password H user.password p2 = false) :
    authenticate_user H db1 u1 p1 = none ∧
    authenticate_user H db2 u2 p2 = none ∧
    authenticate_user H db1 u1 p1 = authenticate_user H db2 u2 p2 := by
  have ha1 : authenticate_user H db1 u1 p1 = none := by
    unfold authenticate_user
    rw [h1]
  have ha2 : authenticate_user H db2 u2 p2 = none := by
    unfold authenticate_user
    cases hf : get_user_by_username db2 u2 with
    | none => rfl
    | some user => simp [h2 user hf]
  exact ⟨ha1, ha2, ha1.trans ha2.symm⟩

theorem c7_uniform_failure_witness :
    get_user_by_username [] "ghost" = none ∧
    authenticate_user constPRF [] "ghost" ['x'] = none ∧
    authenticate_user constPRF [⟨1, "drB", ['x'], "doctor"⟩] "drB" ['w'] = none ∧
    authenticate_user constPRF [] "ghost" ['x']
      = authenticate_user constPRF [⟨1, "drB", ['x'], "doctor"⟩] "drB" ['w'] := by
  have h := c7_uniform_failure constPRF [] [⟨1, "drB", ['x'], "doctor"⟩] "ghost" "drB"
    ['x'] ['w'] (by decide)
    (fun user hu => by
      have hg : get_user_by_username [⟨1, "drB", ['x'], "doctor"⟩] "drB"
          = some ⟨1, "drB", ['x'], "doctor"⟩ := by decide
      have heq : (⟨1, "drB", ['x'], "doctor"⟩ : UserRow) = user :=
        Option.some.inj (hg.symm.trans hu)
      rw [← heq]
      decide)
  exact ⟨by decide, h.1, h.2.1, h.2.2⟩

/-- C8 counterexample: with a storage layer whose `UPDATE` raises,
`change_password` does not propagate any error — the `except Exception`
swallows it and the call returns the normal value `False`. -/
theorem c8_counterexample :
    change_password constPRF (fun _ _ => .error "disk failure") 7 ['n'] [] = .ok false ∧
    ¬ ∃ e, change_password constPRF (fun _ _ => .error "disk failure") 7 ['n'] []
      = .error e := by
  refine ⟨rfl, ?_⟩
  rintro ⟨e, he⟩
  rw [show change_password constPRF (fun _ _ => .error "disk failure") 7 ['n'] []
      = .ok false from rfl] at he
  cases he

/-- C8 (amended): when the storage layer fails during a password change,
`change_password` catches the exception and returns `False` to the caller —
the failure is absorbed into the boolean result, not propagated. -/
theorem c8_change_password_absorbs (H : Pbkdf2) (upd : Nat → List Char → Except String Nat)
    (user_id : Nat) (new_password : List Char) (salt : List (Fin 256)) (e : String)
    (hfail : upd user_id (_hash_password H new_password salt PBKDF2_ITERATIONS)
      = .error e) :
    change_password H upd user_id new_password salt = .ok false := by
  unfold change_password
  simp only [bind, Except.bind, hfail]

theorem c8_change_password_absorbs_witness :
    (fun (_ : Nat) (_ : List Char) => (.error "disk failure" : Except String Nat)) 7
        (_hash_password constPRF ['n'] [] PBKDF2_ITERATIONS) = .error "disk failure" ∧
    change_password constPRF (fun _ _ => .error "disk failure") 7 ['n'] [] = .ok false :=
  ⟨rfl, c8_change_password_absorbs constPRF (fun _ _ => .error "disk failure") 7 ['n'] []
    "disk failure" rfl⟩

/-- C10: a successful authentication returns the stored user row itself —
the very row `get_user_by_username` found, which carries the `password`
field holding the stored `iterations$salt$hash` artifact alongside id,
username and role. -/
theorem c10_returns_stored_row (H : Pbkdf2) (db : List UserRow) (username : String)
    (password : List Char) (user : UserRow)
    (h : authenticate_user H db username password = some user) :
    get_user_by_username db username = some user := by
  unfold authenticate_user at h
  cases hf : get_user_by_username db username with
  | none =>
      rw [hf] at h
      cases h
  | some u =>
      rw [hf] at h
      cases hv : _verify_password H u.password password with
      | false => simp [hv] at h
      | true =>
          simp [hv] at h
          rw [h]

theorem c10_returns_stored_row_witness :
    authenticate_user constPRF [⟨1, "drB", "200000$$".toList, "doctor"⟩] "drB" []
      = some ⟨1, "drB", "200000$$".toList, "doctor"⟩ ∧
    get_user_by_username [⟨1, "drB", "200000$$".toList, "doctor"⟩] "drB"
      = some ⟨1, "drB", "200000$$".toList, "doctor"⟩ :=
  ⟨by decide, c10_returns_stored_row constPRF _ "drB" [] _ (by decide)⟩

end Hospital
